import Mathlib

/-!
# Verification of the AsymQuadRotorDrone physics/control kernel

Shallow embedding, over the real numbers, of the core of the repository:

* `NonSymmetricQuadrotor.compute_mass_properties`, `rotation_matrix`,
  `W_matrix` and `dynamics` from `src/drone/studies/simulation/study.py`;
* `PIDController.control` from `src/drone/studies/design/study.py`.

Floating-point arithmetic is modelled by exact real arithmetic.  NumPy's
`np.linalg.inv` raises `LinAlgError` on a singular matrix; this is modelled
by an `Option` result of the dynamics (`none` on `det I = 0`).  NumPy's
`np.linalg.pinv` is modelled by Mathlib's matrix inverse `B⁻¹`; the two
agree whenever `B` is invertible, and every statement touching the
allocation solve either assumes or establishes invertibility of `B`.
In Lean's real-number semantics division by zero yields `0` (where NumPy
would produce `inf`/`nan`); statements never depend on that junk value
except where explicitly noted.
-/

open Real

abbrev Vec3 := Fin 3 → ℝ
abbrev Vec12 := Fin 12 → ℝ
abbrev Mat3 := Matrix (Fin 3) (Fin 3) ℝ

/-- `np.cross` for 3-vectors. -/
def cross3 (a b : Vec3) : Vec3 :=
  ![a 1 * b 2 - a 2 * b 1, a 2 * b 0 - a 0 * b 2, a 0 * b 1 - a 1 * b 0]

/-- `np.outer` for 3-vectors. -/
def outer3 (a b : Vec3) : Mat3 := Matrix.of fun i j => a i * b j

/-- `np.dot` for 3-vectors. -/
def dot3 (a b : Vec3) : ℝ := a 0 * b 0 + a 1 * b 1 + a 2 * b 2

/-- The mass properties computed by
`NonSymmetricQuadrotor.compute_mass_properties`: total mass, centre of
mass, combined inertia tensor, and rotor positions re-expressed relative
to the centre of mass. -/
structure MassProps where
  m : ℝ
  CoM : Vec3
  I : Mat3
  r_pos_rel : Fin 4 → Vec3

/-- `NonSymmetricQuadrotor.compute_mass_properties`
(`src/drone/studies/simulation/study.py`, lines 28-51): sum the masses,
form the centre of mass, shift every position by `-CoM`, accumulate the
parallel-axis contributions `m_i * (dot(r_i, r_i) * eye(3) - outer(r_i, r_i))`,
add `I_body`, and shift the rotor positions by `-CoM`.  The source performs
no validation whatsoever: there is no emptiness or positivity check on the
masses (the `r_cross` matrix built inside the loop is dead code and is
omitted). -/
noncomputable def compute_mass_properties (masses_positions : List (ℝ × Vec3))
    (I_body : Mat3) (r_pos : Fin 4 → Vec3) : MassProps :=
  let total_mass : ℝ := (masses_positions.map Prod.fst).sum
  let CoM : Vec3 := fun j => (masses_positions.map (fun mp => mp.1 * mp.2 j)).sum / total_mass
  let I : Mat3 := (masses_positions.map (fun mp =>
      let r : Vec3 := fun j => mp.2 j - CoM j
      mp.1 • (dot3 r r • (1 : Mat3) - outer3 r r))).sum
  { m := total_mass
    CoM := CoM
    I := I + I_body
    r_pos_rel := fun k j => r_pos k j - CoM j }

/-- Transposing a sum of symmetric matrices gives the sum back. -/
theorem list_sum_map_transpose {α : Type} (l : List α) (g : α → Mat3)
    (hg : ∀ a, (g a).transpose = g a) :
    ((l.map g).sum).transpose = (l.map g).sum := by
  induction l with
  | nil => simp
  | cons a t ih => simp [Matrix.transpose_add, hg a, ih]

/-- The outer product of a vector with itself is symmetric. -/
theorem outer3_self_transpose (r : Vec3) : (outer3 r r).transpose = outer3 r r := by
  ext i j
  simp [outer3, Matrix.transpose_apply, mul_comm]

/-- Claim C6: for every non-empty mass-element list with positive total
mass and every symmetric body inertia contribution `I_body`, the
aggregated inertia tensor `I = I_body + Σ m_i ((r_i·r_i) Id3 − r_i ⊗ r_i)`
is exactly symmetric. -/
theorem inertia_symmetric (mp : List (ℝ × Vec3)) (I_body : Mat3) (r_pos : Fin 4 → Vec3)
    (h1 : mp ≠ []) (h2 : 0 < (mp.map Prod.fst).sum) (h3 : I_body.transpose = I_body) :
    (compute_mass_properties mp I_body r_pos).I.transpose
      = (compute_mass_properties mp I_body r_pos).I := by
  simp only [compute_mass_properties]
  rw [Matrix.transpose_add, h3]
  congr 1
  refine list_sum_map_transpose mp _ fun a => ?_
  rw [Matrix.transpose_smul, Matrix.transpose_sub, Matrix.transpose_smul,
    Matrix.transpose_one, outer3_self_transpose]

/-- Witness for claim C6 at the concrete one-element mass list `[(1, 0)]`
with identity body inertia. -/
theorem inertia_symmetric_witness :
    ([((1 : ℝ), (fun _ => 0 : Vec3))] ≠ ([] : List (ℝ × Vec3))) ∧
    (0 < (([((1 : ℝ), (fun _ => 0 : Vec3))]).map Prod.fst).sum) ∧
    ((1 : Mat3).transpose = 1) ∧
    (compute_mass_properties [((1 : ℝ), fun _ => 0)] 1 (fun _ _ => 0)).I.transpose
      = (compute_mass_properties [((1 : ℝ), fun _ => 0)] 1 (fun _ _ => 0)).I :=
  ⟨by simp, by simp, Matrix.transpose_one,
    inertia_symmetric _ _ _ (by simp) (by simp) Matrix.transpose_one⟩

/-- Claim C4 (code evaluation): mass aggregation performs no validation.
At the degenerate input `[(-1, 0)]`, whose total mass is `-1 ≤ 0`, the
source raises nothing and happily returns mass properties with `m = -1`
(the claimed `ConfigurationError` does not exist anywhere in the code). -/
theorem mass_properties_no_validation :
    (compute_mass_properties [((-1 : ℝ), fun _ => 0)] 0 (fun _ _ => 0)).m = -1 := by
  simp [compute_mass_properties]

/-- `NonSymmetricQuadrotor.rotation_matrix`
(`src/drone/studies/simulation/study.py`, lines 53-63): the body→inertial
rotation matrix in the roll-pitch-yaw (ZYX) Euler convention. -/
noncomputable def rotation_matrix (phi theta psi : ℝ) : Mat3 :=
  Matrix.of ![
    ![cos theta * cos psi, sin phi * sin theta * cos psi - cos phi * sin psi,
      cos phi * sin theta * cos psi + sin phi * sin psi],
    ![cos theta * sin psi, sin phi * sin theta * sin psi + cos phi * cos psi,
      cos phi * sin theta * sin psi - sin phi * cos psi],
    ![-sin theta, sin phi * cos theta, cos phi * cos theta]]

/-- `NonSymmetricQuadrotor.W_matrix`
(`src/drone/studies/simulation/study.py`, lines 65-73): the Euler-rate
mixing matrix, whose `tan θ` and `1/cos θ` entries are singular at
`θ = ±90°`.  The source contains no guard of any kind: the divisions are
evaluated unconditionally. -/
noncomputable def W_matrix (phi theta : ℝ) : Mat3 :=
  Matrix.of ![
    ![1, sin phi * tan theta, cos phi * tan theta],
    ![0, cos phi, -sin phi],
    ![0, sin phi / cos theta, cos phi / cos theta]]

/-- Elementary rotation about the body x-axis. -/
noncomputable def RxMat (phi : ℝ) : Mat3 :=
  Matrix.of ![![1, 0, 0], ![0, cos phi, -sin phi], ![0, sin phi, cos phi]]

/-- Elementary rotation about the body y-axis. -/
noncomputable def RyMat (theta : ℝ) : Mat3 :=
  Matrix.of ![![cos theta, 0, sin theta], ![0, 1, 0], ![-sin theta, 0, cos theta]]

/-- Elementary rotation about the body z-axis. -/
noncomputable def RzMat (psi : ℝ) : Mat3 :=
  Matrix.of ![![cos psi, -sin psi, 0], ![sin psi, cos psi, 0], ![0, 0, 1]]

/-- The source's rotation matrix factors as `Rz ψ * Ry θ * Rx φ`. -/
theorem rotation_matrix_eq_prod (phi theta psi : ℝ) :
    rotation_matrix phi theta psi = RzMat psi * RyMat theta * RxMat phi := by
  ext i j
  fin_cases i <;> fin_cases j <;>
    simp [rotation_matrix, RxMat, RyMat, RzMat, Matrix.mul_apply, Fin.sum_univ_three,
      Matrix.vecHead, Matrix.vecTail] <;>
    ring

/-- The elementary x-rotation is orthogonal. -/
theorem RxMat_orth (phi : ℝ) : (RxMat phi).transpose * RxMat phi = 1 := by
  ext i j
  rw [Matrix.mul_apply]
  simp only [Matrix.transpose_apply]
  fin_cases i <;> fin_cases j <;>
    simp [RxMat, Fin.sum_univ_three, Matrix.one_apply, Matrix.vecHead, Matrix.vecTail] <;>
    first
      | ring1
      | linear_combination Real.sin_sq_add_cos_sq phi

/-- The elementary y-rotation is orthogonal. -/
theorem RyMat_orth (theta : ℝ) : (RyMat theta).transpose * RyMat theta = 1 := by
  ext i j
  rw [Matrix.mul_apply]
  simp only [Matrix.transpose_apply]
  fin_cases i <;> fin_cases j <;>
    simp [RyMat, Fin.sum_univ_three, Matrix.one_apply, Matrix.vecHead, Matrix.vecTail] <;>
    first
      | ring1
      | linear_combination Real.sin_sq_add_cos_sq theta

/-- The elementary z-rotation is orthogonal. -/
theorem RzMat_orth (psi : ℝ) : (RzMat psi).transpose * RzMat psi = 1 := by
  ext i j
  rw [Matrix.mul_apply]
  simp only [Matrix.transpose_apply]
  fin_cases i <;> fin_cases j <;>
    simp [RzMat, Fin.sum_univ_three, Matrix.one_apply, Matrix.vecHead, Matrix.vecTail] <;>
    first
      | ring1
      | linear_combination Real.sin_sq_add_cos_sq psi

/-- The elementary x-rotation has determinant one. -/
theorem RxMat_det (phi : ℝ) : (RxMat phi).det = 1 := by
  simp [RxMat, Matrix.det_fin_three]
  linear_combination Real.sin_sq_add_cos_sq phi

/-- The elementary y-rotation has determinant one. -/
theorem RyMat_det (theta : ℝ) : (RyMat theta).det = 1 := by
  simp [RyMat, Matrix.det_fin_three]
  linear_combination Real.sin_sq_add_cos_sq theta

/-- The elementary z-rotation has determinant one. -/
theorem RzMat_det (psi : ℝ) : (RzMat psi).det = 1 := by
  simp [RzMat, Matrix.det_fin_three]
  linear_combination Real.sin_sq_add_cos_sq psi

/-- Claim C9: for every Euler-angle triple the body→inertial matrix
returned by `rotation_matrix` is a proper rotation: `Rᵀ R = 1` and
`det R = 1`. -/
theorem rotation_matrix_proper (phi theta psi : ℝ) :
    (rotation_matrix phi theta psi).transpose * rotation_matrix phi theta psi = 1 ∧
    (rotation_matrix phi theta psi).det = 1 := by
  rw [rotation_matrix_eq_prod]
  constructor
  · have h : (RzMat psi * RyMat theta * RxMat phi).transpose
        * (RzMat psi * RyMat theta * RxMat phi)
        = (RxMat phi).transpose
          * (((RyMat theta).transpose
            * (((RzMat psi).transpose * RzMat psi) * RyMat theta)) * RxMat phi) := by
      simp only [Matrix.transpose_mul, Matrix.mul_assoc]
    rw [h, RzMat_orth, Matrix.one_mul, RyMat_orth, Matrix.one_mul, RxMat_orth]
  · rw [Matrix.det_mul, Matrix.det_mul, RzMat_det, RyMat_det, RxMat_det]
    norm_num

/-- Claim C7 (code evaluation at the gimbal-lock singularity): `W_matrix`
has no error branch whatsoever.  At `φ = 0`, `θ = π/2` it evaluates the
`tan θ` and `1/cos θ` terms unconditionally and silently returns a matrix
(under the real-number junk semantics `tan (π/2) = 0` and `x / 0 = 0`;
NumPy instead silently returns huge finite floats from `tan(π/2)` and the
`1/cos` division — in neither semantics is any error signalled, contrary
to the claimed explicit `Err(Singularity)` branch). -/
theorem W_matrix_silent_at_gimbal_lock :
    W_matrix 0 (π / 2) = Matrix.of ![![1, 0, 0], ![0, 1, 0], ![0, 0, 0]] := by
  ext i j
  fin_cases i <;> fin_cases j <;>
    simp [W_matrix, Real.tan_pi_div_two, Real.cos_pi_div_two, Real.sin_pi_div_two]

/-- Slice `x[0:3]` (position) of the 12-state. -/
def posOf (x : Vec12) : Vec3 := fun i => x ⟨i.1, by have := i.2; omega⟩

/-- Slice `x[3:6]` (velocity) of the 12-state. -/
def velOf (x : Vec12) : Vec3 := fun i => x ⟨3 + i.1, by have := i.2; omega⟩

/-- Slice `x[6:9]` (Euler angles `(φ, θ, ψ)`) of the 12-state. -/
def angOf (x : Vec12) : Vec3 := fun i => x ⟨6 + i.1, by have := i.2; omega⟩

/-- Slice `x[9:12]` (body angular velocity) of the 12-state. -/
def omOf (x : Vec12) : Vec3 := fun i => x ⟨9 + i.1, by have := i.2; omega⟩

/-- Reassemble `dxdt` from its four 3-vector slices (`dxdt[0:3] = v`,
`dxdt[3:6] = a`, `dxdt[6:9] = eta_dot`, `dxdt[9:12] = omega_dot`). -/
def build12 (a b c d : Vec3) : Vec12 := fun i =>
  if h : i.1 < 3 then a ⟨i.1, h⟩
  else if h6 : i.1 < 6 then b ⟨i.1 - 3, by omega⟩
  else if h9 : i.1 < 9 then c ⟨i.1 - 6, by omega⟩
  else d ⟨i.1 - 9, by have := i.2; omega⟩

/-- The per-vehicle data read by `dynamics` and by the controller: the
constructor arguments `kf`, `km`, `rotor_dirs`, `Cd`, `Ctau` together with
the derived mass properties `m`, `I`, `r_pos_rel` (fields of the
`NonSymmetricQuadrotor` object after `compute_mass_properties` ran). -/
structure Quad where
  kf : Fin 4 → ℝ
  km : Fin 4 → ℝ
  rotor_dirs : Fin 4 → ℝ
  Cd : Mat3
  Ctau : Mat3
  m : ℝ
  I : Mat3
  r_pos_rel : Fin 4 → Vec3

/-- `NonSymmetricQuadrotor.dynamics`
(`src/drone/studies/simulation/study.py`, lines 75-119).  Thrusts
`F_i = kf_i ω_i²`, reaction torques `spin_i km_i ω_i²`, torque sum over
the four rotors, drag `-Cd v` and `-Ctau ω`, translational acceleration
`(1/m)(m g + R F_total + F_drag)`, Euler rigid-body equation for `ω̇`,
Euler-angle rates `W ω`.  `np.linalg.inv(I)` raises `LinAlgError` when
`I` is singular: modelled by returning `none` exactly on `det I = 0`.
No check of any kind is made on the sign of the rotor speeds. -/
noncomputable def dynamics (Q : Quad) (t : ℝ) (x : Vec12) (omega : Fin 4 → ℝ) :
    Option Vec12 :=
  if Q.I.det = 0 then none else
  let v := velOf x
  let R := rotation_matrix (angOf x 0) (angOf x 1) (angOf x 2)
  let W := W_matrix (angOf x 0) (angOf x 1)
  let F_i : Fin 4 → ℝ := fun i => Q.kf i * omega i ^ 2
  let tau_psi_i : Fin 4 → ℝ := fun i => Q.rotor_dirs i * Q.km i * omega i ^ 2
  let F_total : Vec3 := ![0, 0, ∑ i, F_i i]
  let tau_total : Vec3 :=
    ∑ i : Fin 4, (cross3 (Q.r_pos_rel i) ![0, 0, F_i i] + ![0, 0, tau_psi_i i])
  let F_drag : Vec3 := -(Q.Cd.mulVec v)
  let tau_drag : Vec3 := -(Q.Ctau.mulVec (omOf x))
  let a : Vec3 := (1 / Q.m) • (Q.m • (![0, 0, -9.81] : Vec3) + R.mulVec F_total + F_drag)
  let omega_dot : Vec3 :=
    (Q.I)⁻¹.mulVec (tau_total - cross3 (omOf x) (Q.I.mulVec (omOf x)) + tau_drag)
  let eta_dot : Vec3 := W.mulVec (omOf x)
  some (build12 v a eta_dot omega_dot)

/-- Modelled from the claim's words (refinement comparison for C1): the
12-vector `[v, a, η̇, ω̇]` with `a = g + (1/m)(R F_body + F_drag)`,
`g = (0,0,−9.81)`, `F_body = (0,0,Σ F_i)`, `F_drag = −Cd v`,
`ω̇ = I⁻¹(τ_total − ω×(I ω) + τ_drag)` with
`τ_total = Σ (r_i × (0,0,F_i) + (0,0,spin_i km_i ω_i²))`,
`τ_drag = −Ctau ω`, and `η̇ = W(φ,θ) ω`. -/
noncomputable def dynamicsSpec (Q : Quad) (t : ℝ) (x : Vec12) (omega : Fin 4 → ℝ) :
    Vec12 :=
  let v := velOf x
  let R := rotation_matrix (angOf x 0) (angOf x 1) (angOf x 2)
  let W := W_matrix (angOf x 0) (angOf x 1)
  let F_i : Fin 4 → ℝ := fun i => Q.kf i * omega i ^ 2
  let tau_psi_i : Fin 4 → ℝ := fun i => Q.rotor_dirs i * Q.km i * omega i ^ 2
  let F_total : Vec3 := ![0, 0, ∑ i, F_i i]
  let tau_total : Vec3 :=
    ∑ i : Fin 4, (cross3 (Q.r_pos_rel i) ![0, 0, F_i i] + ![0, 0, tau_psi_i i])
  let F_drag : Vec3 := -(Q.Cd.mulVec v)
  let tau_drag : Vec3 := -(Q.Ctau.mulVec (omOf x))
  let a : Vec3 := (![0, 0, -9.81] : Vec3) + (1 / Q.m) • (R.mulVec F_total + F_drag)
  let omega_dot : Vec3 :=
    (Q.I)⁻¹.mulVec (tau_total - cross3 (omOf x) (Q.I.mulVec (omOf x)) + tau_drag)
  let eta_dot : Vec3 := W.mulVec (omOf x)
  build12 v a eta_dot omega_dot

/-- Claim C1: under the `VehicleParameters` invariants (`m ≠ 0` and an
invertible inertia tensor, §3 of the specification), the state-derivative
function returns exactly the 12-vector `[v, a, η̇, ω̇]` described by the
specification.  The source computes `a` as `(1/m)(m g + R F_total + F_drag)`,
which equals the claim's `g + (1/m)(R F_body + F_drag)` precisely because
`m ≠ 0`. -/
theorem dynamics_matches_spec (Q : Quad) (t : ℝ) (x : Vec12) (omega : Fin 4 → ℝ)
    (hm : Q.m ≠ 0) (hI : Q.I.det ≠ 0) :
    dynamics Q t x omega = some (dynamicsSpec Q t x omega) := by
  have key : ∀ y z : Vec3,
      (1 / Q.m) • (Q.m • (![0, 0, -9.81] : Vec3) + y + z)
        = (![0, 0, -9.81] : Vec3) + (1 / Q.m) • (y + z) := by
    intro y z
    rw [add_assoc, smul_add, smul_smul, one_div, inv_mul_cancel₀ hm, one_smul]
  simp only [dynamics, dynamicsSpec, if_neg hI]
  rw [key]

/-- A minimal concrete vehicle: unit mass, identity inertia, zero thrust
and drag coefficients. -/
noncomputable def simpleQuad : Quad :=
  { kf := fun _ => 0
    km := fun _ => 0
    rotor_dirs := ![1, -1, 1, -1]
    Cd := 0
    Ctau := 0
    m := 1
    I := 1
    r_pos_rel := fun _ _ => 0 }

/-- Witness for claim C1 at the concrete vehicle `simpleQuad` and the zero
state. -/
theorem dynamics_matches_spec_witness :
    simpleQuad.m ≠ 0 ∧ simpleQuad.I.det ≠ 0 ∧
    dynamics simpleQuad 0 (fun _ => 0) (fun _ => 0)
      = some (dynamicsSpec simpleQuad 0 (fun _ => 0) (fun _ => 0)) :=
  ⟨by norm_num [simpleQuad], by simp [simpleQuad],
    dynamics_matches_spec _ _ _ _ (by norm_num [simpleQuad]) (by simp [simpleQuad])⟩

/-- Counterexample to claim C5 as stated: at the vehicle `simpleQuad` and
the zero state, the rotor-speed vector `(-1, 0, 0, 0)` has a negative
entry, yet `dynamics` happily returns a derivative vector — the source
never inspects the sign of the rotor speeds (`omega**2` is taken
regardless). -/
theorem dynamics_negative_speed_counterexample :
    ((![(-1 : ℝ), 0, 0, 0]) 0 < 0) ∧
    (dynamics simpleQuad 0 (fun _ => 0) ![(-1 : ℝ), 0, 0, 0]).isSome = true := by
  constructor
  · norm_num
  · simp [dynamics, simpleQuad]

/-- Claim C5 as amended: the state-derivative computation fails (models
`np.linalg.inv` raising `LinAlgError`) exactly when the inertia tensor is
singular at call time; the sign of the rotor speeds is never checked, so
the result is a derivative vector for every rotor-speed input whenever
`I` is invertible. -/
theorem dynamics_some_iff_invertible (Q : Quad) (t : ℝ) (x : Vec12)
    (omega : Fin 4 → ℝ) :
    (dynamics Q t x omega).isSome = true ↔ Q.I.det ≠ 0 := by
  by_cases h : Q.I.det = 0 <;> simp [dynamics, h]

/-- Claim C10: the state derivative depends neither on the time argument
nor on the position slice `x[0:3]`: if two states agree on the velocity,
attitude and body-rate slices, the derivatives coincide for any two
times. -/
theorem dynamics_ignores_time_and_position (Q : Quad) (t t' : ℝ) (x x' : Vec12)
    (omega : Fin 4 → ℝ)
    (hv : velOf x = velOf x') (ha : angOf x = angOf x') (ho : omOf x = omOf x') :
    dynamics Q t x omega = dynamics Q t' x' omega := by
  simp only [dynamics, hv, ha, ho]

/-- Witness for claim C10: two states that differ in position (and two
different times) produce identical derivatives on `simpleQuad`. -/
theorem dynamics_ignores_time_and_position_witness :
    velOf (fun i => if i.1 < 3 then 5 else 0) = velOf (fun _ => (0 : ℝ)) ∧
    angOf (fun i => if i.1 < 3 then 5 else 0) = angOf (fun _ => (0 : ℝ)) ∧
    omOf (fun i => if i.1 < 3 then 5 else 0) = omOf (fun _ => (0 : ℝ)) ∧
    dynamics simpleQuad 0 (fun i => if i.1 < 3 then 5 else 0) (fun _ => 0)
      = dynamics simpleQuad 1 (fun _ => 0) (fun _ => 0) := by
  have hv : velOf (fun i => if i.1 < 3 then (5 : ℝ) else 0) = velOf (fun _ => (0 : ℝ)) := by
    funext i; simp [velOf]
  have ha : angOf (fun i => if i.1 < 3 then (5 : ℝ) else 0) = angOf (fun _ => (0 : ℝ)) := by
    funext i; simp [angOf]; omega
  have ho : omOf (fun i => if i.1 < 3 then (5 : ℝ) else 0) = omOf (fun _ => (0 : ℝ)) := by
    funext i; simp [omOf]; omega
  exact ⟨hv, ha, ho, dynamics_ignores_time_and_position _ _ _ _ _ _ hv ha ho⟩

/-- Slice `setpoint[0:3]` (desired position). -/
def spPos (sp : Fin 6 → ℝ) : Vec3 := fun i => sp ⟨i.1, by have := i.2; omega⟩

/-- Slice `setpoint[3:6]` (desired velocity). -/
def spVel (sp : Fin 6 → ℝ) : Vec3 := fun i => sp ⟨3 + i.1, by have := i.2; omega⟩

/-- The fields of `PIDController` (`src/drone/studies/design/study.py`,
lines 5-14): the four gain vectors and the (never used) integral-error
and last-error storage. -/
structure PIDController where
  kp_pos : Vec3
  kd_pos : Vec3
  kp_ang : Vec3
  kd_ang : Vec3
  integral_error_pos : Vec3
  integral_error_ang : Vec3
  last_error_pos : Option Vec3
  last_error_ang : Option Vec3

/-- `PIDController.__init__`: the concrete gains of the design study and
zero/absent integral and last-error storage. -/
noncomputable def PIDController.init : PIDController :=
  { kp_pos := ![1, 1, 15]
    kd_pos := ![2, 2, 7]
    kp_ang := ![200, 200, 100]
    kd_ang := ![20, 20, 10]
    integral_error_pos := fun _ => 0
    integral_error_ang := fun _ => 0
    last_error_pos := none
    last_error_ang := none }

/-- The 4×4 control-allocation matrix `B` built inside
`PIDController.control` (lines 49-54): row 0 `kf`, row 1 `kf·Ly`,
row 2 `−kf·Lx`, row 3 `km·spin`, where `Lx, Ly` are the first two
components of the rotor positions relative to the CoM. -/
noncomputable def allocB (q : Quad) : Matrix (Fin 4) (Fin 4) ℝ :=
  Matrix.of ![
    fun j => q.kf j,
    fun j => q.kf j * q.r_pos_rel j 1,
    fun j => -q.kf j * q.r_pos_rel j 0,
    fun j => q.km j * q.rotor_dirs j]

/-- The desired force/moment vector of `PIDController.control`
(lines 16-62): PD position feedback `u1 = kp_pos*(sp[0:3]-p) +
kd_pos*(sp[3:6]-v)`, desired thrust `u1 + (0,0,9.81)`, level attitude
setpoint so `e_ang = -angles`, `e_ω = -ω`, PD attitude feedback, and the
stacked vector `[thrust_des_z * m, τ_des]`. -/
noncomputable def forceMoments (c : PIDController) (q : Quad) (x : Vec12)
    (setpoint : Fin 6 → ℝ) : Fin 4 → ℝ :=
  let p := posOf x
  let v := velOf x
  let angles := angOf x
  let omega_body := omOf x
  let error_pos : Vec3 := fun i => spPos setpoint i - p i
  let error_vel : Vec3 := fun i => spVel setpoint i - v i
  let u1 : Vec3 := fun i => c.kp_pos i * error_pos i + c.kd_pos i * error_vel i
  let thrust_des : Vec3 := fun i => u1 i + (![0, 0, 9.81] : Vec3) i
  let error_ang : Vec3 := fun i => (![0, 0, 0] : Vec3) i - angles i
  let error_omega : Vec3 := fun i => -omega_body i
  let tau_des : Vec3 := fun i => c.kp_ang i * error_ang i + c.kd_ang i * error_omega i
  ![thrust_des 2 * q.m, tau_des 0, tau_des 1, tau_des 2]

/-- The solve `omega_squared = pinv(B) @ force_moments` of line 65.
`np.linalg.pinv` is modelled by the matrix inverse, with which it agrees
whenever `B` is invertible. -/
noncomputable def omegaSquaredRaw (c : PIDController) (q : Quad) (x : Vec12)
    (setpoint : Fin 6 → ℝ) : Fin 4 → ℝ :=
  (allocB q)⁻¹.mulVec (forceMoments c q x setpoint)

/-- The clip `np.clip(omega_squared, 0, None)` of line 66: negative
entries are replaced by zero before the square root. -/
noncomputable def omegaSquaredClipped (c : PIDController) (q : Quad) (x : Vec12)
    (setpoint : Fin 6 → ℝ) : Fin 4 → ℝ :=
  fun i => max 0 (omegaSquaredRaw c q x setpoint i)

/-- `PIDController.control` (lines 16-69): the rotor-speed command
`sqrt(clip(pinv(B) @ force_moments, 0, None))` together with the
controller state the method leaves behind.  The method body reads but
never assigns any `self` field, so the resulting state is the input
state. -/
noncomputable def PIDController.control (c : PIDController) (q : Quad) (t : ℝ)
    (x : Vec12) (setpoint : Fin 6 → ℝ) : (Fin 4 → ℝ) × PIDController :=
  (fun i => Real.sqrt (omegaSquaredClipped c q x setpoint i), c)

/-- Claim C3: for every controller state, vehicle, time, state and
setpoint, the clipped squared-rotor-speed vector is elementwise
non-negative (so no negative value reaches the square root) and the
returned rotor-speed command is elementwise non-negative. -/
theorem rotor_command_nonneg (c : PIDController) (q : Quad) (t : ℝ) (x : Vec12)
    (setpoint : Fin 6 → ℝ) (i : Fin 4) :
    0 ≤ omegaSquaredClipped c q x setpoint i ∧
    0 ≤ (PIDController.control c q t x setpoint).1 i :=
  ⟨le_max_left _ _, Real.sqrt_nonneg _⟩

/-- Claim C8: the control call has no side effect on the controller: the
controller state after the call (gains, integral errors, last errors —
every field) is exactly the state before it.  (The input state vector `x`
is only ever read; in this embedding immutability of `x` is intrinsic.) -/
theorem control_no_side_effect (c : PIDController) (q : Quad) (t : ℝ) (x : Vec12)
    (setpoint : Fin 6 → ℝ) :
    (PIDController.control c q t x setpoint).2 = c := rfl

/-- At the hover setpoint every feedback error vanishes, so the desired
force/moment vector reduces to `[9.81 m, 0, 0, 0]`. -/
theorem forceMoments_at_hover (c : PIDController) (q : Quad) (x : Vec12)
    (sp : Fin 6 → ℝ)
    (hpos : posOf x = spPos sp) (hvel : velOf x = 0) (hspv : spVel sp = 0)
    (hang : angOf x = 0) (hom : omOf x = 0) :
    forceMoments c q x sp = ![9.81 * q.m, 0, 0, 0] := by
  funext i
  fin_cases i <;>
    simp [forceMoments, hpos, hvel, hspv, hang, hom]

/-- Claim C2 as amended: starting at the commanded hover setpoint (state
position equal to the setpoint position, velocity and desired velocity
zero, attitude and body rates zero), and provided the allocation matrix
`B` has full rank *and* the solved squared-speed vector `pinv(B)·desired`
is elementwise non-negative (so the clip step is inactive), the commanded
rotor speeds satisfy `Σ kf_i ω_i² = m · 9.81` exactly. -/
theorem hover_thrust_balance (c : PIDController) (q : Quad) (t : ℝ) (x : Vec12)
    (sp : Fin 6 → ℝ)
    (hpos : posOf x = spPos sp) (hvel : velOf x = 0) (hspv : spVel sp = 0)
    (hang : angOf x = 0) (hom : omOf x = 0)
    (hB : IsUnit (allocB q).det)
    (hclip : omegaSquaredClipped c q x sp = omegaSquaredRaw c q x sp) :
    ∑ i, q.kf i * ((PIDController.control c q t x sp).1 i) ^ 2 = q.m * 9.81 := by
  have hsq : ∀ i, ((PIDController.control c q t x sp).1 i) ^ 2
      = omegaSquaredRaw c q x sp i := by
    intro i
    have h0 : 0 ≤ omegaSquaredClipped c q x sp i := le_max_left _ _
    calc ((PIDController.control c q t x sp).1 i) ^ 2
        = omegaSquaredClipped c q x sp i := Real.sq_sqrt h0
      _ = omegaSquaredRaw c q x sp i := by rw [hclip]
  have hrow : ∀ i, q.kf i = allocB q 0 i := by
    intro i
    simp [allocB]
  calc ∑ i, q.kf i * ((PIDController.control c q t x sp).1 i) ^ 2
      = ∑ i, allocB q 0 i * omegaSquaredRaw c q x sp i := by
        refine Finset.sum_congr rfl fun i _ => ?_
        rw [hsq i, hrow i]
    _ = ((allocB q).mulVec (omegaSquaredRaw c q x sp)) 0 := by
        simp [Matrix.mulVec, Matrix.dotProduct]
    _ = (((allocB q) * (allocB q)⁻¹).mulVec (forceMoments c q x sp)) 0 := by
        rw [omegaSquaredRaw, Matrix.mulVec_mulVec]
    _ = ((1 : Matrix (Fin 4) (Fin 4) ℝ).mulVec (forceMoments c q x sp)) 0 := by
        rw [Matrix.mul_nonsing_inv _ hB]
    _ = forceMoments c q x sp 0 := by rw [Matrix.one_mulVec]
    _ = q.m * 9.81 := by
        rw [forceMoments_at_hover c q x sp hpos hvel hspv hang hom]
        simp [mul_comm]

/-- A symmetric cross-configuration vehicle for the hover-balance witness:
unit mass and unit coefficients, rotors at `(±1, 0, 0)` and `(0, ±1, 0)`. -/
noncomputable def wQuad : Quad :=
  { kf := ![1, 1, 1, 1]
    km := ![1, 1, 1, 1]
    rotor_dirs := ![1, 1, -1, -1]
    Cd := 0
    Ctau := 0
    m := 1
    I := 1
    r_pos_rel := ![![1, 0, 0], ![-1, 0, 0], ![0, 1, 0], ![0, -1, 0]] }

/-- Explicit inverse of `allocB wQuad`. -/
noncomputable def wInv : Matrix (Fin 4) (Fin 4) ℝ :=
  Matrix.of ![
    ![1/4, 0, -1/2, 1/4],
    ![1/4, 0, 1/2, 1/4],
    ![1/4, 1/2, 0, -1/4],
    ![1/4, -1/2, 0, -1/4]]

/-- `wInv` is a right inverse of the allocation matrix of `wQuad`. -/
theorem allocB_wQuad_mul_wInv : allocB wQuad * wInv = 1 := by
  ext i j
  rw [Matrix.mul_apply]
  fin_cases i <;> fin_cases j <;>
    simp [allocB, wQuad, wInv, Fin.sum_univ_four, Matrix.one_apply,
      Matrix.vecHead, Matrix.vecTail] <;>
    norm_num

/-- The hover force/moment demand on `wQuad` from the all-zero state and
setpoint. -/
theorem forceMoments_wQuad :
    forceMoments PIDController.init wQuad (fun _ => 0) (fun _ => 0)
      = ![9.81, 0, 0, 0] := by
  funext i
  fin_cases i <;>
    simp [forceMoments, posOf, velOf, angOf, omOf, spPos, spVel, wQuad,
      PIDController.init]

/-- The solved squared speeds on `wQuad` are all `9.81 / 4 = 2.4525`. -/
theorem omegaSquaredRaw_wQuad :
    omegaSquaredRaw PIDController.init wQuad (fun _ => 0) (fun _ => 0)
      = ![2.4525, 2.4525, 2.4525, 2.4525] := by
  have hinv : (allocB wQuad)⁻¹ = wInv := Matrix.inv_eq_right_inv allocB_wQuad_mul_wInv
  rw [omegaSquaredRaw, hinv, forceMoments_wQuad]
  funext i
  fin_cases i <;>
    simp [Matrix.mulVec, Matrix.dotProduct, wInv, Fin.sum_univ_four,
      Matrix.vecHead, Matrix.vecTail] <;>
    norm_num

/-- Witness for claim C2 (amended) on the concrete vehicle `wQuad`, the
all-zero state and the all-zero setpoint: every hypothesis holds and the
net vertical thrust balances gravity. -/
theorem hover_thrust_balance_witness :
    posOf (fun _ => (0 : ℝ)) = spPos (fun _ => (0 : ℝ)) ∧
    velOf (fun _ => (0 : ℝ)) = 0 ∧
    spVel (fun _ => (0 : ℝ)) = 0 ∧
    angOf (fun _ => (0 : ℝ)) = 0 ∧
    omOf (fun _ => (0 : ℝ)) = 0 ∧
    IsUnit (allocB wQuad).det ∧
    omegaSquaredClipped PIDController.init wQuad (fun _ => 0) (fun _ => 0)
      = omegaSquaredRaw PIDController.init wQuad (fun _ => 0) (fun _ => 0) ∧
    ∑ i, wQuad.kf i
        * ((PIDController.control PIDController.init wQuad 0 (fun _ => 0) (fun _ => 0)).1 i) ^ 2
      = wQuad.m * 9.81 := by
  have h1 : posOf (fun _ => (0 : ℝ)) = spPos (fun _ => (0 : ℝ)) := by
    funext i; simp [posOf, spPos]
  have h2 : velOf (fun _ => (0 : ℝ)) = 0 := by funext i; simp [velOf]
  have h3 : spVel (fun _ => (0 : ℝ)) = 0 := by funext i; simp [spVel]
  have h4 : angOf (fun _ => (0 : ℝ)) = 0 := by funext i; simp [angOf]
  have h5 : omOf (fun _ => (0 : ℝ)) = 0 := by funext i; simp [omOf]
  have h6 : IsUnit (allocB wQuad).det :=
    Matrix.isUnit_det_of_right_inverse allocB_wQuad_mul_wInv
  have h7 : omegaSquaredClipped PIDController.init wQuad (fun _ => 0) (fun _ => 0)
      = omegaSquaredRaw PIDController.init wQuad (fun _ => 0) (fun _ => 0) := by
    funext i
    rw [omegaSquaredClipped, omegaSquaredRaw_wQuad]
    fin_cases i <;>
      exact max_eq_right (by norm_num)
  exact ⟨h1, h2, h3, h4, h5, h6, h7,
    hover_thrust_balance PIDController.init wQuad 0 (fun _ => 0) (fun _ => 0)
      h1 h2 h3 h4 h5 h6 h7⟩

/-- An asymmetric vehicle whose allocation matrix is invertible but whose
hover solve has a negative component: rotors at `(1,1,0)`, `(1,-1,0)`,
`(-1,1,0)`, `(1,1,0)` with spins `(+,-,-,-)`, unit mass and unit
coefficients. -/
noncomputable def cxQuad : Quad :=
  { kf := ![1, 1, 1, 1]
    km := ![1, 1, 1, 1]
    rotor_dirs := ![1, -1, -1, -1]
    Cd := 0
    Ctau := 0
    m := 1
    I := 1
    r_pos_rel := ![![1, 1, 0], ![1, -1, 0], ![-1, 1, 0], ![1, 1, 0]] }

/-- Explicit inverse of `allocB cxQuad`. -/
noncomputable def cxInv : Matrix (Fin 4) (Fin 4) ℝ :=
  Matrix.of ![
    ![1/2, 0, 0, 1/2],
    ![1/2, -1/2, 0, 0],
    ![1/2, 0, 1/2, 0],
    ![-1/2, 1/2, -1/2, -1/2]]

/-- `cxInv` is a right inverse of the allocation matrix of `cxQuad`. -/
theorem allocB_cxQuad_mul_cxInv : allocB cxQuad * cxInv = 1 := by
  ext i j
  rw [Matrix.mul_apply]
  fin_cases i <;> fin_cases j <;>
    simp [allocB, cxQuad, cxInv, Fin.sum_univ_four, Matrix.one_apply,
      Matrix.vecHead, Matrix.vecTail] <;>
    norm_num

/-- The solved squared speeds on `cxQuad`: the fourth component is
negative, so the clip step will alter it. -/
theorem omegaSquaredRaw_cxQuad :
    omegaSquaredRaw PIDController.init cxQuad (fun _ => 0) (fun _ => 0)
      = ![4.905, 4.905, 4.905, -4.905] := by
  have hinv : (allocB cxQuad)⁻¹ = cxInv := Matrix.inv_eq_right_inv allocB_cxQuad_mul_cxInv
  have hfm : forceMoments PIDController.init cxQuad (fun _ => 0) (fun _ => 0)
      = ![9.81, 0, 0, 0] := by
    funext i
    fin_cases i <;>
      simp [forceMoments, posOf, velOf, angOf, omOf, spPos, spVel, cxQuad,
        PIDController.init]
  rw [omegaSquaredRaw, hinv, hfm]
  funext i
  fin_cases i <;>
    simp [Matrix.mulVec, Matrix.dotProduct, cxInv, Fin.sum_univ_four,
      Matrix.vecHead, Matrix.vecTail] <;>
    norm_num

/-- Counterexample to claim C2 as stated: on `cxQuad` the state equals the
commanded hover setpoint (all-zero state and setpoint) and the allocation
matrix has full rank, yet the returned rotor speeds give
`Σ kf_i ω_i² = 14.715 ≠ 9.81 = m·9.81`: the pseudoinverse solution has a
negative fourth component, and clipping it to zero raises the net vertical
thrust above the gravity balance. -/
theorem hover_thrust_counterexample :
    posOf (fun _ => (0 : ℝ)) = spPos (fun _ => (0 : ℝ)) ∧
    velOf (fun _ => (0 : ℝ)) = 0 ∧
    spVel (fun _ => (0 : ℝ)) = 0 ∧
    angOf (fun _ => (0 : ℝ)) = 0 ∧
    omOf (fun _ => (0 : ℝ)) = 0 ∧
    IsUnit (allocB cxQuad).det ∧
    ∑ i, cxQuad.kf i
        * ((PIDController.control PIDController.init cxQuad 0 (fun _ => 0) (fun _ => 0)).1 i) ^ 2
      ≠ cxQuad.m * 9.81 := by
  refine ⟨by funext i; simp [posOf, spPos], by funext i; simp [velOf],
    by funext i; simp [spVel], by funext i; simp [angOf], by funext i; simp [omOf],
    Matrix.isUnit_det_of_right_inverse allocB_cxQuad_mul_cxInv, ?_⟩
  have hclip : omegaSquaredClipped PIDController.init cxQuad (fun _ => 0) (fun _ => 0)
      = ![4.905, 4.905, 4.905, 0] := by
    funext i
    rw [omegaSquaredClipped, omegaSquaredRaw_cxQuad]
    fin_cases i
    · exact max_eq_right (by norm_num)
    · exact max_eq_right (by norm_num)
    · exact max_eq_right (by norm_num)
    · exact max_eq_left (by norm_num)
  have hsq : (0 : ℝ) ≤ 4.905 := by norm_num
  rw [show (PIDController.control PIDController.init cxQuad 0 (fun _ => 0) (fun _ => 0)).1
      = fun i => Real.sqrt ((![4.905, 4.905, 4.905, 0] : Fin 4 → ℝ) i) from by
    rw [PIDController.control, hclip]]
  rw [Fin.sum_univ_four]
  simp [cxQuad, Matrix.vecHead, Matrix.vecTail]
  rw [Real.sq_sqrt hsq]
  norm_num
